import Mathlib

/-!
Verification model of the Flask recipe website (`src/app.py`).

Strings are modelled as `List Char` (Python strings are sequences of code
points).  The character classes of Python's `re` module (`\w`, `\s`) and
`str.lower()` are modelled on their ASCII fragment, which is where every
claim is decided; the full Unicode tables of the regex engine are outside
the model.  HTML auto-escaping performed by the template engine and URL
percent-encoding performed by `url_for` are likewise outside the model:
pages are modelled as the literal template text with the interpolations
spliced in.
-/

namespace RecipeApp

/-- Characters matched by the regex class `\w` (ASCII fragment):
letters, digits and the underscore. -/
def pyIsWord (c : Char) : Bool := c.isAlphanum || c == '_'

/-- Characters matched by the regex class `\s` (ASCII fragment):
space, tab, newline, vertical tab, form feed, carriage return. -/
def pyIsSpace (c : Char) : Bool :=
  c == ' ' || c == '\t' || c == '\n' || c == '\x0b' || c == '\x0c' || c == '\r'

/-- Model of `name.lower()` as a per-character map (ASCII case mapping). -/
def pyLower (s : List Char) : List Char := s.map Char.toLower

/-- Model of `re.sub(r'[^\w\s]', '', s)`: the pattern matches one character
at a time, so substituting the empty string deletes every character that is
neither a word character nor whitespace. -/
def removeNonWordSpace (s : List Char) : List Char :=
  s.filter (fun c => pyIsWord c || pyIsSpace c)

/-- Model of `s.replace(' ', '-')`: the needle is the single space
character, so each occurrence of a space becomes one hyphen. -/
def replaceSpaces (s : List Char) : List Char :=
  s.map (fun c => if c == ' ' then '-' else c)

/-- Line 176 of `app.py`:
`recipe_id = re.sub(r'[^\w\s]', '', name.lower()).replace(' ', '-')`. -/
def slugify (name : List Char) : List Char :=
  replaceSpaces (removeNonWordSpace (pyLower name))

/-- Modelled from the spec (§4.2, step (c)): worker that replaces each
maximal run of whitespace by a single hyphen.  The flag records whether the
previous character belonged to a whitespace run. -/
def hyphenateRunsAux : Bool → List Char → List Char
  | _, [] => []
  | inRun, c :: rest =>
    if pyIsSpace c then
      if inRun then hyphenateRunsAux true rest
      else '-' :: hyphenateRunsAux true rest
    else c :: hyphenateRunsAux false rest

/-- Modelled from the spec (§4.2, step (c)): replace each run of whitespace
with a single hyphen. -/
def hyphenateRuns (s : List Char) : List Char := hyphenateRunsAux false s

/-- Modelled from the spec (§4.2): the three-step reference transformation —
(a) lower-case, (b) remove every character that is not a letter, digit,
underscore or whitespace, (c) replace each run of whitespace with a single
hyphen. -/
def slugSpecRef (name : List Char) : List Char :=
  hyphenateRuns (removeNonWordSpace (pyLower name))

/-- Amended step (c): replace each occurrence of the space character with a
hyphen, one hyphen per space, leaving every other character (including
non-space whitespace) unchanged. -/
def hyphenateEachSpace : List Char → List Char
  | [] => []
  | c :: rest => (if c == ' ' then '-' else c) :: hyphenateEachSpace rest

/-- The amended reference transformation: steps (a) and (b) as in the spec,
then the amended step (c). -/
def slugAmendedRef (name : List Char) : List Char :=
  hyphenateEachSpace (removeNonWordSpace (pyLower name))

/-- Characters allowed by the claimed slug alphabet: lowercase letters,
digits, underscores, hyphens. -/
def slugChar (c : Char) : Bool := c.isLower || c.isDigit || c == '_' || c == '-'

/-- Recipe record, lines 10–14 of `app.py`: a dictionary with keys
`name`, `ingredients` (a list of strings) and `instructions`. -/
structure Recipe where
  name : List Char
  ingredients : List (List Char)
  instructions : List Char
deriving DecidableEq, Repr

/-- Slug keys of the recipe dictionary. -/
abbrev Slug := List Char

/-- The recipe store: a Python `dict` modelled as an association list in
insertion order, with unique keys maintained by `dictInsert`. -/
abbrev Store := List (Slug × Recipe)

/-- Model of `recipes.get(k)`: lookup by exact key. -/
def dictGet (k : Slug) : Store → Option Recipe
  | [] => none
  | (k₀, v₀) :: rest => if k₀ = k then some v₀ else dictGet k rest

/-- Model of `recipes[k] = v` on a Python `dict`: an existing key is
updated in place (keeping its position in insertion order), a new key is
appended at the end. -/
def dictInsert (k : Slug) (v : Recipe) : Store → Store
  | [] => [(k, v)]
  | (k₀, v₀) :: rest =>
    if k₀ = k then (k, v) :: rest else (k₀, v₀) :: dictInsert k v rest

/-- The seeded sample recipe, lines 10–14 of `app.py`. -/
def seedRecipe : Recipe :=
  ⟨"Midnight Ramen".data,
   ["instant ramen".data, "egg".data, "green onions".data, "hot sauce".data],
   "1. Boil water\n2. Cook noodles\n3. Add toppings".data⟩

/-- The seeded store, lines 9–15 of `app.py`: exactly one recipe, keyed
by the slug `midnight-ramen`. -/
def seedStore : Store := [("midnight-ramen".data, seedRecipe)]

/-- Model of Python `s.split('\n')` (line 171): split on each newline;
the result always has at least one element, and `""` splits to `[""]`. -/
def splitNl : List Char → List (List Char)
  | [] => [[]]
  | c :: rest =>
    if c == '\n' then [] :: splitNl rest
    else
      match splitNl rest with
      | [] => [[c]]
      | h :: t => (c :: h) :: t

/-- Custom Jinja2 filter, lines 100–102 of `app.py`:
`value.replace('\n', '<br>')`.  The needle is a single character, so the
replacement acts independently on each character. -/
def nl2br (s : List Char) : List Char :=
  (s.map (fun c => if c == '\n' then "<br>".data else [c])).flatten

/-- Modelled from the spec (§3, §4.3): the reference description of the
newline conversion — every `'\n'` is replaced by `<br>` and every other
character is left unchanged. -/
def nl2brRef : List Char → List Char
  | [] => []
  | c :: rest => if c == '\n' then "<br>".data ++ nl2brRef rest else c :: nl2brRef rest

/-- Rendered form of `base_template_start` (lines 20–89): the title block
is rendered to its content and `url_for` of the two nav endpoints resolves
to `/` and `/add`.  Literal braces of the CSS are written as `\x7b`/`\x7d`. -/
def baseStart : List Char :=
  ("\n<!DOCTYPE html>\n<html>\n<head>\n    <title>Recipe Website</title>\n    <style>\n        body \x7b\n            font-family: Arial, sans-serif;\n            line-height: 1.6;\n            margin: 0;\n            padding: 20px;\n            max-width: 800px;\n            margin: 0 auto;\n        \x7d\n        header \x7b\n            margin-bottom: 20px;\n            border-bottom: 1px solid #ddd;\n            padding-bottom: 10px;\n        \x7d\n        nav a \x7b\n            margin-right: 15px;\n            text-decoration: none;\n            color: #0066cc;\n        \x7d\n        .recipe-grid \x7b\n            display: grid;\n            grid-template-columns: repeat(auto-fill, minmax(200px, 1fr));\n            gap: 15px;\n            margin-top: 20px;\n        \x7d\n        .recipe-card \x7b\n            border: 1px solid #ddd;\n            border-radius: 5px;\n            padding: 15px;\n            text-align: center;\n        \x7d\n        form div \x7b\n            margin-bottom: 15px;\n        \x7d\n        label \x7b\n            display: block;\n            margin-bottom: 5px;\n        \x7d\n        input, textarea, select \x7b\n            width: 100%;\n            padding: 8px;\n            border: 1px solid #ddd;\n            border-radius: 4px;\n        \x7d\n        button \x7b\n            background-color: #0066cc;\n            color: white;\n            border: none;\n            padding: 10px 15px;\n            border-radius: 4px;\n            cursor: pointer;\n        \x7d\n    </style>\n</head>\n<body>\n    <header>\n        <h1>Recipe Collection</h1>\n        <nav>\n            <a href=\"/\">Home</a>\n            <a href=\"/add\">Add Recipe</a>\n        </nav>\n    </header>\n    \n    <main>\n").data

/-- Rendered form of `base_template_end` (lines 92–96). -/
def baseEnd : List Char := "\n    </main>\n</body>\n</html>\n".data

/-- Text of the list-page content before the recipe loop (lines 109–113). -/
def indexPre : List Char :=
  "\n    <h2>Our Recipes</h2>\n    \n    <div class=\"recipe-grid\">\n        ".data

/-- Text of the list-page content after the loop (lines 118–120). -/
def indexPost : List Char := "\n    </div>\n    ".data

/-- Literal card text before the recipe name (lines 114–115). -/
def cardPre : List Char :=
  "\n            <div class=\"recipe-card\">\n                <h3>".data

/-- Literal card text between the name and the link target (lines 115–116);
`url_for('recipe', recipe_id=recipe_id)` resolves to `/recipe/` followed by
the slug. -/
def cardMid : List Char := "</h3>\n                <a href=\"".data

/-- Literal card text after the link target (lines 116–117). -/
def cardPost : List Char := "\">View Recipe</a>\n            </div>\n        ".data

/-- One rendered recipe card of the list page (lines 114–117): the card
shows the recipe's name and links to `/recipe/` followed by its slug. -/
def recipeCard (slug : Slug) (r : Recipe) : List Char :=
  cardPre ++ r.name ++ cardMid ++ ("/recipe/".data ++ slug) ++ cardPost

/-- The rendered list page (lines 106–125): base layout around one card per
store entry, in store (insertion) order. -/
def renderIndex (store : Store) : List Char :=
  baseStart ++ indexPre ++ (store.map (fun p => recipeCard p.1 p.2)).flatten
    ++ indexPost ++ baseEnd

/-- Handler of `GET /` (lines 106–125): always responds 200 with the
rendered list page. -/
def indexRoute (store : Store) : Nat × List Char := (200, renderIndex store)

/-- One rendered ingredient list item (lines 143–145). -/
def ingredientItem (ing : List Char) : List Char :=
  "\n                <li>".data ++ ing ++ "</li>\n            ".data

/-- Detail-page text between the heading and the ingredient loop
(lines 137–143). -/
def detailPre : List Char :=
  ("\n    <h2>".data)

/-- Detail-page text between the name and the ingredient list. -/
def detailMid₁ : List Char :=
  "</h2>\n    \n    <section>\n        <h3>Ingredients</h3>\n        <ul>\n            ".data

/-- Detail-page text between the ingredient list and the instructions. -/
def detailMid₂ : List Char :=
  "\n        </ul>\n    </section>\n    \n    <section>\n        <h3>Instructions</h3>\n        <p>".data

/-- Detail-page text after the instructions; `url_for('index')` resolves
to `/`. -/
def detailPost : List Char :=
  "</p>\n    </section>\n    \n    <a href=\"/\">Back to All Recipes</a>\n    ".data

/-- The rendered detail page (lines 137–160): name as heading, one `<li>`
per ingredient, instructions passed through the `nl2br` filter. -/
def renderDetail (r : Recipe) : List Char :=
  baseStart ++ detailPre ++ r.name ++ detailMid₁
    ++ (r.ingredients.map ingredientItem).flatten ++ detailMid₂
    ++ nl2br r.instructions ++ detailPost ++ baseEnd

/-- Body of the plain 404 response, line 134. -/
def notFoundBody : List Char := "Recipe not found".data

/-- Handler of `GET /recipe/<recipe_id>` (lines 128–160): look the slug up
in the store; on a hit respond 200 with the rendered detail page, on a miss
respond 404 with the plain untemplated body. -/
def detailRoute (slug : Slug) (store : Store) : Nat × List Char :=
  match dictGet slug store with
  | some r => (200, renderDetail r)
  | none => (404, notFoundBody)

/-- A `POST /add` submission in which all three form fields are present
(lines 169–172). -/
structure AddForm where
  name : List Char
  ingredients : List Char
  instructions : List Char
deriving DecidableEq, Repr

/-- Handler of `POST /add` with all fields present (lines 167–186): compute
the slug from the name, split the ingredients on newlines, assign the new
record into the store at the slug, and respond with a redirect (Flask's
default 302) whose Location is `/recipe/` followed by the slug. -/
def addRoute (form : AddForm) (store : Store) : (Nat × List Char) × Store :=
  let slug := slugify form.name
  ((302, "/recipe/".data ++ slug),
   dictInsert slug ⟨form.name, splitNl form.ingredients, form.instructions⟩ store)

/-- Store states reachable by the application: the seeded store, followed by
any sequence of add-recipe submissions. -/
inductive Reachable : Store → Prop
  | seed : Reachable seedStore
  | step (form : AddForm) {s : Store} : Reachable s → Reachable (addRoute form s).2

/-! Helper lemmas shared by the claim theorems. -/

theorem toLower_isUpper_false (c : Char) : (Char.toLower c).isUpper = false := by
  unfold Char.toLower
  simp only []
  by_cases h : c.toNat ≥ 65 ∧ c.toNat ≤ 90
  · rw [if_pos h]
    obtain ⟨h1, h2⟩ := h
    set n := c.toNat with hn
    interval_cases n <;> decide
  · rw [if_neg h]
    rw [Bool.eq_false_iff]
    intro hu
    apply h
    simp only [Char.isUpper, Bool.and_eq_true, decide_eq_true_eq] at hu
    obtain ⟨hu1, hu2⟩ := hu
    have g1 : (65 : Nat) ≤ c.val.toNat :=
      UInt32.le_toNat_of_le (by decide) hu1
    have g2 : c.val.toNat ≤ 90 :=
      UInt32.toNat_le_of_le (by decide) hu2
    exact ⟨g1, g2⟩

theorem hyphenateEachSpace_eq_replaceSpaces (l : List Char) :
    hyphenateEachSpace l = replaceSpaces l := by
  induction l with
  | nil => rfl
  | cons c rest ih => simp [hyphenateEachSpace, replaceSpaces] at ih ⊢; exact ih

theorem dictGet_insert_self (k : Slug) (v : Recipe) (s : Store) :
    dictGet k (dictInsert k v s) = some v := by
  induction s with
  | nil => simp [dictInsert, dictGet]
  | cons p rest ih =>
    obtain ⟨k₀, v₀⟩ := p
    by_cases h : k₀ = k
    · simp [dictInsert, h, dictGet]
    · simp [dictInsert, h, dictGet, ih]

theorem dictGet_insert_ne (k k₀ : Slug) (v : Recipe) (s : Store)
    (h : k₀ ≠ k) : dictGet k₀ (dictInsert k v s) = dictGet k₀ s := by
  induction s with
  | nil => simp [dictInsert, dictGet, Ne.symm h]
  | cons p rest ih =>
    obtain ⟨k₁, v₁⟩ := p
    by_cases h₁ : k₁ = k
    · subst h₁
      simp [dictInsert, dictGet, Ne.symm h]
    · simp [dictInsert, h₁, dictGet, ih]

theorem mem_dictInsert (p : Slug × Recipe) (k : Slug) (v : Recipe) (s : Store)
    (h : p ∈ dictInsert k v s) : p = (k, v) ∨ p ∈ s := by
  induction s with
  | nil => simpa [dictInsert] using h
  | cons q rest ih =>
    obtain ⟨k₁, v₁⟩ := q
    by_cases h₁ : k₁ = k
    · simp [dictInsert, h₁] at h
      rcases h with h | h
      · exact Or.inl (by simp [h])
      · exact Or.inr (List.mem_cons_of_mem _ h)
    · simp [dictInsert, h₁] at h
      rcases h with h | h
      · exact Or.inr (by simp [h])
      · rcases ih h with h₂ | h₂
        · exact Or.inl h₂
        · exact Or.inr (List.mem_cons_of_mem _ h₂)

theorem splitNl_ne_nil (s : List Char) : splitNl s ≠ [] := by
  cases s with
  | nil => simp [splitNl]
  | cons c rest =>
    by_cases h : c == '\n'
    · simp [splitNl, h]
    · simp only [splitNl, h, Bool.false_eq_true, if_false]
      cases splitNl rest <;> simp

theorem length_splitNl (s : List Char) :
    (splitNl s).length = s.count '\n' + 1 := by
  induction s with
  | nil => simp [splitNl]
  | cons c rest ih =>
    by_cases h : c == '\n'
    · have hc : c = '\n' := by simpa using h
      simp [splitNl, h, List.count_cons, hc, ih]
    · have hc : ¬ c = '\n' := by simpa using h
      simp only [splitNl, h, Bool.false_eq_true, if_false]
      rcases hsp : splitNl rest with _ | ⟨hd, tl⟩
      · exact absurd hsp (splitNl_ne_nil rest)
      · have := ih
        rw [hsp] at this
        simp [List.count_cons, hc, ← this]

theorem nl2br_eq_ref (s : List Char) : nl2br s = nl2brRef s := by
  induction s with
  | nil => rfl
  | cons c rest ih =>
    by_cases h : c == '\n'
    · have hc : c = '\n' := by simpa using h
      simp [nl2br, nl2brRef, hc] at ih ⊢
      exact ih
    · have hc : ¬ c = '\n' := by simpa using h
      simp [nl2br, nl2brRef, hc] at ih ⊢
      exact ih

theorem newline_not_mem_nl2br (s : List Char) : '\n' ∉ nl2br s := by
  rw [nl2br_eq_ref]
  induction s with
  | nil => simp [nl2brRef]
  | cons c rest ih =>
    simp only [nl2brRef]
    by_cases h : c == '\n'
    · rw [if_pos h]
      intro hmem
      rcases List.mem_append.mp hmem with hm | hm
      · revert hm; decide
      · exact ih hm
    · rw [if_neg h]
      intro hmem
      rcases List.mem_cons.mp hmem with hm | hm
      · exact absurd (by simpa using hm.symm) h
      · exact ih hm

theorem nl2br_of_no_newline (s : List Char) (h : '\n' ∉ s) : nl2br s = s := by
  rw [nl2br_eq_ref]
  induction s with
  | nil => rfl
  | cons c rest ih =>
    simp only [List.mem_cons, not_or] at h
    simp only [nl2brRef]
    rw [if_neg (by simpa using fun h₂ : c = '\n' => h.1 h₂.symm)]
    rw [ih h.2]

theorem space_not_mem_slugify (name : List Char) : ' ' ∉ slugify name := by
  intro hmem
  simp only [slugify, replaceSpaces, List.mem_map] at hmem
  obtain ⟨d, _, hd⟩ := hmem
  by_cases h : d == ' '
  · rw [if_pos h] at hd
    exact absurd hd (by decide)
  · rw [if_neg h] at hd
    exact h (by simp [hd])

theorem reachable_head (store : Store) (h : Reachable store) :
    ∃ r rest, store = ("midnight-ramen".data, r) :: rest := by
  induction h with
  | seed => exact ⟨seedRecipe, [], rfl⟩
  | step form hr ih =>
    obtain ⟨r, rest, heq⟩ := ih
    rw [heq]
    show ∃ r₂ rest₂,
      dictInsert (slugify form.name) _ (("midnight-ramen".data, r) :: rest) = _
    by_cases hk : "midnight-ramen".data = slugify form.name
    · rw [dictInsert, if_pos hk]
      exact ⟨_, rest, by rw [hk]⟩
    · rw [dictInsert, if_neg hk]
      exact ⟨r, _, rfl⟩

/-! Claim theorems. -/

/-- C1 (counterexample): the claim is false as stated — the generated slug
does not always equal the spec's three-step reference transformation, whose
step (c) collapses each run of whitespace to a single hyphen.  At the name
`"a  b"` (two spaces) the code produces `"a--b"` while the reference
transformation produces `"a-b"`. -/
theorem C1_counterexample :
    slugify ("a  b".data) ≠ slugSpecRef ("a  b".data) := by decide

/-- C1 (amended): for every free-text name, the generated slug equals the
reference transformation with step (c) amended to replace each occurrence
of the space character with one hyphen (one hyphen per space, other
whitespace characters left unchanged). -/
theorem C1_slug_eq_amended_ref (name : List Char) :
    slugify name = slugAmendedRef name := by
  unfold slugify slugAmendedRef
  rw [hyphenateEachSpace_eq_replaceSpaces]

/-- C2 (counterexample): the claim is false as stated — the slug of the
name `"a\tb"` contains a tab character, which is neither a lowercase
letter, a digit, an underscore nor a hyphen: the regex keeps every
whitespace character and only spaces are replaced by hyphens. -/
theorem C2_counterexample :
    ((slugify ("a\tb".data)).all slugChar) = false := by decide

/-- C2 (amended): every character of a generated slug is a lowercase
letter, a digit, an underscore, a hyphen, or a whitespace character other
than the space; in particular no space and no punctuation appears. -/
theorem C2_slug_alphabet (name : List Char) :
    (slugify name).all (fun c => slugChar c || (pyIsSpace c && !(c == ' '))) = true := by
  rw [List.all_eq_true]
  intro c hc
  simp only [slugify, replaceSpaces, List.mem_map] at hc
  obtain ⟨d, hd, hcd⟩ := hc
  simp only [removeNonWordSpace, List.mem_filter] at hd
  obtain ⟨hdl, hdp⟩ := hd
  simp only [pyLower, List.mem_map] at hdl
  obtain ⟨e, _, hde⟩ := hdl
  subst hcd
  by_cases hsp : d == ' '
  · rw [if_pos hsp]
    decide
  · rw [if_neg hsp]
    simp only [Bool.not_eq_true] at hsp
    have hlow : d.isUpper = false := by
      rw [← hde]; exact toLower_isUpper_false e
    rcases show pyIsWord d = true ∨ pyIsSpace d = true by simpa using hdp with hw | hs
    · rcases show d.isAlphanum = true ∨ d = '_' by simpa [pyIsWord] using hw with ha | hu
      · rcases show d.isAlpha = true ∨ d.isDigit = true by
            simpa [Char.isAlphanum] using ha with hal | hdg
        · rcases show d.isUpper = true ∨ d.isLower = true by
              simpa [Char.isAlpha] using hal with hup | hlo
          · rw [hlow] at hup
            exact absurd hup (by decide)
          · simp [slugChar, hlo]
        · simp [slugChar, hdg]
      · simp [slugChar, hu]
    · simp [hs, hsp]

/-- C3 (counterexample): the claim is false as stated — submitting the
add-form with the all-punctuation name `"!!!"` produces the empty slug, so
after that request the store holds a recipe whose slug key is empty. -/
theorem C3_counterexample :
    slugify ("!!!".data) = [] ∧
    dictGet [] (addRoute ⟨"!!!".data, "butter".data, "melt".data⟩ seedStore).2 ≠ none := by
  decide

/-- C3 (amended): every slug key in the seeded store is non-empty and free
of whitespace, and every add-recipe submission preserves the invariant that
no slug key contains a space character; the inserted slug may however be
empty (for an all-punctuation name) or contain non-space whitespace (for a
name containing, e.g., a tab). -/
theorem C3_seed_ok_and_no_space_preserved (form : AddForm) (store : Store)
    (h : ∀ p ∈ store, ' ' ∉ p.1) :
    (∀ p ∈ seedStore, p.1 ≠ [] ∧ ∀ c ∈ p.1, pyIsSpace c = false) ∧
    ∀ p ∈ (addRoute form store).2, ' ' ∉ p.1 := by
  constructor
  · decide
  · intro p hp
    rcases mem_dictInsert p (slugify form.name) _ store (by simpa [addRoute] using hp)
      with hpe | hps
    · rw [hpe]
      exact space_not_mem_slugify form.name
    · exact h p hps

/-- C3 (witness): the amended preservation statement applied to a concrete
submission over the seeded store. -/
theorem C3_witness : ' ' ∉ ("midnight-ramen".data : List Char) :=
  (C3_seed_ok_and_no_space_preserved ⟨"Tea".data, "water".data, "steep".data⟩ seedStore
    (by decide)).2 ("midnight-ramen".data, seedRecipe) (by decide)

/-- C4: for every slug and store, a lookup hit makes `GET /recipe/{slug}`
respond 200 with the rendered detail page, a miss makes it respond 404 with
exactly the plain untemplated body `Recipe not found`, and no status other
than 200 or 404 is possible. -/
theorem C4_detail_route (slug : Slug) (store : Store) :
    (∀ r, dictGet slug store = some r → detailRoute slug store = (200, renderDetail r)) ∧
    (dictGet slug store = none → detailRoute slug store = (404, notFoundBody)) ∧
    ((detailRoute slug store).1 = 200 ∨ (detailRoute slug store).1 = 404) := by
  unfold detailRoute
  rcases h : dictGet slug store with _ | r
  · exact ⟨fun r hr => by simp_all, fun _ => rfl, Or.inr rfl⟩
  · exact ⟨fun r₂ hr => by simp_all, fun hn => by simp_all, Or.inl rfl⟩

/-- C4 (witness): both branches at concrete inputs over the seeded store. -/
theorem C4_witness :
    detailRoute ("midnight-ramen".data) seedStore = (200, renderDetail seedRecipe) ∧
    detailRoute ("no-such".data) seedStore = (404, notFoundBody) :=
  ⟨(C4_detail_route ("midnight-ramen".data) seedStore).1 seedRecipe (by decide),
   (C4_detail_route ("no-such".data) seedStore).2.1 (by decide)⟩

/-- C5: a POST to `/add` with all three fields present responds with a
redirect (302) whose Location is `/recipe/{slug}` for
`slug = slugify name`, and stores at that slug the record holding the
submitted name, the ingredients split on newline boundaries, and the
instructions, overwriting any existing entry at that slug. -/
theorem C5_add_route (form : AddForm) (store : Store) :
    (addRoute form store).1 = (302, "/recipe/".data ++ slugify form.name) ∧
    dictGet (slugify form.name) (addRoute form store).2 =
      some ⟨form.name, splitNl form.ingredients, form.instructions⟩ := by
  refine ⟨rfl, ?_⟩
  simpa [addRoute] using dictGet_insert_self (slugify form.name)
    ⟨form.name, splitNl form.ingredients, form.instructions⟩ store

/-- C6: starting from the seeded store, submitting the add-form with name
`Midnight Ramen` (and any ingredients and instructions) produces the slug
`midnight-ramen` and overwrites the seeded record: the store size is
unchanged and the entry at `midnight-ramen` holds the submitted content. -/
theorem C6_overwrite_seed (ing instr : List Char) :
    slugify ("Midnight Ramen".data) = "midnight-ramen".data ∧
    ((addRoute ⟨"Midnight Ramen".data, ing, instr⟩ seedStore).2).length =
      seedStore.length ∧
    dictGet ("midnight-ramen".data)
        (addRoute ⟨"Midnight Ramen".data, ing, instr⟩ seedStore).2 =
      some ⟨"Midnight Ramen".data, splitNl ing, instr⟩ := by
  have hs : slugify ("Midnight Ramen".data) = "midnight-ramen".data := by decide
  refine ⟨hs, ?_, ?_⟩
  · simp [addRoute, hs, seedStore, dictInsert]
  · simp [addRoute, hs, seedStore, dictInsert, dictGet]

/-- C7: every recipe created through the add flow has a non-empty stored
ingredients sequence, and the sequence has exactly one element iff the
submitted ingredients text contains no newline. -/
theorem C7_ingredients_nonempty (form : AddForm) (store : Store) (r : Recipe)
    (h : dictGet (slugify form.name) (addRoute form store).2 = some r) :
    r.ingredients ≠ [] ∧ (r.ingredients.length = 1 ↔ '\n' ∉ form.ingredients) := by
  have h₂ : dictGet (slugify form.name) (addRoute form store).2 =
      some ⟨form.name, splitNl form.ingredients, form.instructions⟩ := by
    simpa [addRoute] using dictGet_insert_self (slugify form.name)
      ⟨form.name, splitNl form.ingredients, form.instructions⟩ store
  rw [h₂] at h
  obtain rfl : r = ⟨form.name, splitNl form.ingredients, form.instructions⟩ := by
    simpa using h.symm
  refine ⟨splitNl_ne_nil form.ingredients, ?_⟩
  show (splitNl form.ingredients).length = 1 ↔ '\n' ∉ form.ingredients
  rw [length_splitNl]
  constructor
  · intro hl
    exact List.count_eq_zero.mp (by omega)
  · intro hn
    have : form.ingredients.count '\n' = 0 := List.count_eq_zero.mpr hn
    omega

/-- C7 (witness): the statement at a concrete single-line submission. -/
theorem C7_witness :
    ((⟨"Pie".data, splitNl ("butter".data), "bake".data⟩ : Recipe).ingredients ≠ []) ∧
    ((⟨"Pie".data, splitNl ("butter".data), "bake".data⟩ : Recipe).ingredients.length = 1 ↔
      '\n' ∉ ("butter".data : List Char)) :=
  C7_ingredients_nonempty ⟨"Pie".data, "butter".data, "bake".data⟩ seedStore
    ⟨"Pie".data, splitNl ("butter".data), "bake".data⟩ (by decide)

/-- C8: for every reachable store, `GET /` responds 200 (it never fails)
with the list page: the base layout around exactly one card per stored
recipe in insertion order; the first entry carries the pre-seeded slug
`midnight-ramen`; each card contains the recipe's name and the link target
`/recipe/{slug}`. -/
theorem C8_index_route (store : Store) (h : Reachable store) :
    (indexRoute store).1 = 200 ∧
    (indexRoute store).2 =
      baseStart ++ indexPre ++ (store.map (fun p => recipeCard p.1 p.2)).flatten
        ++ indexPost ++ baseEnd ∧
    (∃ r rest, store = ("midnight-ramen".data, r) :: rest) ∧
    ∀ p ∈ store, p.2.name <:+: recipeCard p.1 p.2 ∧
      ("/recipe/".data ++ p.1) <:+: recipeCard p.1 p.2 := by
  refine ⟨rfl, rfl, reachable_head store h, ?_⟩
  intro p _
  constructor
  · exact ⟨cardPre, cardMid ++ ("/recipe/".data ++ p.1) ++ cardPost, by
      simp [recipeCard, List.append_assoc]⟩
  · exact ⟨cardPre ++ p.2.name ++ cardMid, cardPost, by
      simp [recipeCard, List.append_assoc]⟩

/-- C8 (witness): the list route at the seeded store. -/
theorem C8_witness : (indexRoute seedStore).1 = 200 :=
  (C8_index_route seedStore Reachable.seed).1

/-- C9: the `nl2br` filter applied by the detail page replaces every
newline of the instructions by the line-break markup `<br>` and leaves all
other characters unchanged: it equals the literal reference description of
that transformation, its output contains no newline, it is the identity on
newline-free text, and the rendered detail page contains the filtered
instructions. -/
theorem C9_nl2br_conversion (s : List Char) (r : Recipe) :
    nl2br s = nl2brRef s ∧
    '\n' ∉ nl2br s ∧
    ('\n' ∉ s → nl2br s = s) ∧
    nl2br r.instructions <:+: renderDetail r := by
  refine ⟨nl2br_eq_ref s, newline_not_mem_nl2br s, nl2br_of_no_newline s, ?_⟩
  exact ⟨baseStart ++ detailPre ++ r.name ++ detailMid₁
      ++ (r.ingredients.map ingredientItem).flatten ++ detailMid₂,
    detailPost ++ baseEnd, by simp [renderDetail, List.append_assoc]⟩

/-- C9 (witness): the identity branch at concrete newline-free text. -/
theorem C9_witness : nl2br ("abc".data) = "abc".data :=
  (C9_nl2br_conversion ("abc".data) seedRecipe).2.2.1 (by decide)

/-- C10: a POST to `/add` may change only the store entry at the computed
slug — a lookup at any other slug returns exactly the same record after the
request as before it. -/
theorem C10_frame (form : AddForm) (store : Store) (slug : Slug)
    (h : slug ≠ slugify form.name) :
    dictGet slug (addRoute form store).2 = dictGet slug store := by
  simpa [addRoute] using dictGet_insert_ne (slugify form.name) slug
    ⟨form.name, splitNl form.ingredients, form.instructions⟩ store h

/-- C10 (witness): the seeded entry is untouched by an unrelated add. -/
theorem C10_witness :
    dictGet ("midnight-ramen".data)
        (addRoute ⟨"Tea".data, "water".data, "steep".data⟩ seedStore).2 =
      dictGet ("midnight-ramen".data) seedStore :=
  C10_frame ⟨"Tea".data, "water".data, "steep".data⟩ seedStore
    ("midnight-ramen".data) (by decide)

end RecipeApp
